import Mathlib

/-!
Verification development for the window-management core of the catacomb Wayland
compositor.  The Rust sources are shallowly embedded as Lean definitions:

* `src/src/windows/layout.rs`  — the layout engine (`Layouts`, `Layout`,
  `LayoutPosition`, the staged layout transactions and `apply_transaction`);
* `src/src/windows/mod.rs`     — the root `Windows` container, the global
  transaction clock, `update_transaction`, `on_drag` and orientation locking;
* `src/src/layer.rs`           — layer-shell window lists (`Layers`);
* `src/src/overview.rs`        — the application overview (`Overview`,
  `OverviewPosition`, `DragAndDrop`, offset clamping and drag actions).

Modelling conventions, used consistently below:

* A window lives behind `Rc<RefCell<Window>>` in Rust; pointer identity is the
  only identity the embedded code ever compares (`Rc::ptr_eq`).  Windows are
  therefore modelled by a numeric identifier `WindowId`.  The `Window` struct
  itself lives in `src/src/windows/window.rs`, which is not part of this tree;
  per the specification a window carries an "alive" flag and a "transaction
  done" flag, so these two observations are passed around as predicates
  `alive, done : WindowId → Bool`.  A window's internal
  `Window::apply_transaction` mutates state outside this model and is a no-op
  on the identifier.
* `f64` arithmetic is modelled over `ℚ` (exact rational arithmetic); the
  `f64::round`, `f64::fract` and `as i32`/`as isize` truncation casts of Rust
  are reproduced exactly on `ℚ` by `rustRound`, `rustFract` and `rustTrunc`.
* Wall-clock instants and the millisecond timestamps of the global transaction
  clock are `Nat` values (milliseconds); monotonicity of the clock becomes an
  explicit hypothesis where the code relies on it.
* Enter/leave/resize requests sent to client surfaces, frame scheduling and
  event-loop timers are effects on external collaborators; they do not change
  any state of the embedded structures and are noted by comments where the
  source performs them.
-/

namespace Catacomb

/-- Pointer identity of an `Rc<RefCell<Window>>`. -/
abbrev WindowId := Nat

/-! ### Rust numeric primitives over ℚ -/

/-- `f64::round`: round half away from zero. -/
def rustRound (q : ℚ) : ℤ :=
  if 0 ≤ q then ⌊q + 1/2⌋ else -⌊-q + 1/2⌋

/-- `f64 as i32` / `f64 as isize`: truncation toward zero (saturation at the
integer-type bounds never occurs at the magnitudes the claims touch). -/
def rustTrunc (q : ℚ) : ℤ :=
  if 0 ≤ q then ⌊q⌋ else ⌈q⌉

/-- `f64::fract`: fractional part with the sign of the input. -/
def rustFract (q : ℚ) : ℚ :=
  q - rustTrunc q

/-- `f64::clamp` (the callers below always satisfy `lo ≤ hi`, so the Rust
panic branch is unreachable). -/
def rustClamp (x lo hi : ℚ) : ℚ :=
  min (max x lo) hi

/-- `f64::EPSILON`. -/
def F64_EPSILON : ℚ := 1 / 2 ^ 52

/-! ### Layout engine: `src/src/windows/layout.rs` -/

/-- Workspace window layout (`Layout`): at most one primary and one secondary
window. -/
structure Layout where
  primary : Option WindowId
  secondary : Option WindowId
deriving DecidableEq, Repr

/-- `Layout::new`. -/
def Layout.new (primary : WindowId) : Layout :=
  ⟨some primary, none⟩

/-- `Layout::default()`. -/
def Layout.default : Layout :=
  ⟨none, none⟩

/-- `Layout::window_count`. -/
def Layout.window_count (l : Layout) : Nat :=
  (if l.primary.isSome then 1 else 0) + (if l.secondary.isSome then 1 else 0)

/-- Default layout as const for borrowing purposes (`DEFAULT_LAYOUT`). -/
def DEFAULT_LAYOUT : Layout :=
  ⟨none, none⟩

/-- Reference to a specific window in a layout (`LayoutPosition`). -/
structure LayoutPosition where
  index : Nat
  secondary : Bool
deriving DecidableEq, Repr

/-- `LayoutPosition::new`. -/
def LayoutPosition.new (index : Nat) (secondary : Bool) : LayoutPosition :=
  ⟨index, secondary⟩

/-- Transactional layout change (`windows::layout::Transaction`; named apart
from the root `Windows` transaction, which is a distinct Rust type of the same
name in a different module). -/
inductive LayoutTransaction where
  | Active (layout : Option Nat)
  | Primary (position : LayoutPosition)
  | Secondary (position : LayoutPosition)
deriving DecidableEq, Repr

/-- Active workspaces (`Layouts`).  `focus` models the `Option<Weak<...>>`
field by the target's identity. -/
structure Layouts where
  focus : Option WindowId
  transactions : List LayoutTransaction
  active_layout : Option Nat
  layouts : List Layout
deriving DecidableEq, Repr

/-- `Layouts::default()`. -/
def Layouts.default : Layouts :=
  ⟨none, [], none, []⟩

/-- `Layouts::get`. -/
def Layouts.get (ls : Layouts) (index : Nat) : Option Layout :=
  ls.layouts[index]?

/-- `Layouts::active`. -/
def Layouts.active (ls : Layouts) : Layout :=
  ((ls.active_layout.bind fun i => ls.layouts[i]?).getD DEFAULT_LAYOUT)

/-- The windows visited by `Layouts::with_visible` (the active layout's
primary, then secondary). -/
def Layouts.visible_windows (ls : Layouts) : List WindowId :=
  ls.active.primary.toList ++ ls.active.secondary.toList

/-- `Layouts::is_empty`. -/
def Layouts.is_empty (ls : Layouts) : Bool :=
  ls.layouts.isEmpty

/-- `Layouts::len`. -/
def Layouts.len (ls : Layouts) : Nat :=
  ls.layouts.length

/-- The window identities yielded by the `Layouts::windows` iterator:
for each layout its primary then its secondary. -/
def Layouts.windowIds (ls : Layouts) : List WindowId :=
  ls.layouts.flatMap fun l => l.primary.toList ++ l.secondary.toList

/-- `Layouts::set_active`.  The enter events sent to the newly visible windows
are external effects; the focus updates they accompany are kept: the loop
leaves `focus` at the last visited window (primary if present, else
secondary, else cleared).  `add_transaction` arms the global transaction
clock, which lives on the root `Windows` state and is modelled there. -/
def Layouts.set_active (ls : Layouts) (layout_index : Option Nat) : Layouts :=
  let layout := (layout_index.bind fun i => ls.layouts[i]?).getD DEFAULT_LAYOUT
  let focus := match layout.primary, layout.secondary with
    | some p, _ => some p
    | none, some s => some s
    | none, none => none
  { ls with
    focus := focus
    transactions := ls.transactions ++ [.Active layout_index] }

/-- `Layouts::cycle_active`.  `isize::rem_euclid` agrees with `Int.emod` for a
positive modulus; for a zero layout count the Rust code panics, which the
claims exclude. -/
def Layouts.cycle_active (ls : Layouts) (n : ℤ) : Layouts :=
  let start : Nat × ℤ := match ls.active_layout with
    | some active_layout => (active_layout, n)
    -- Use first "step" to cycle from no active layout to index 0.
    | none => (0, n - n.sign)
  let target_layout : ℤ := ((start.1 : ℤ) + start.2) % (ls.layouts.length : ℤ)
  ls.set_active (some target_layout.toNat)

/-- `Layouts::set_primary` (staging).  Resize requests are external effects. -/
def Layouts.set_primary (ls : Layouts) (position : LayoutPosition) : Layouts :=
  match ls.get position.index with
  | none => ls
  | some layout =>
    -- Perform simple layout swap when no resize is necessary.
    if layout.secondary.isNone then
      ls.set_active (some position.index)
    else
      -- Send enter event for new primary (external); update focus.
      let window := if position.secondary then layout.secondary else layout.primary
      let focus := match window with
        | some w => some w
        | none => ls.focus
      { ls with
        focus := focus
        transactions := ls.transactions ++ [.Primary position] }

/-- `Layouts::set_secondary` (staging).  Resize requests are external
effects. -/
def Layouts.set_secondary (ls : Layouts) (position : LayoutPosition) : Layouts :=
  match ls.get position.index with
  | none => ls
  | some layout =>
    match ls.active.primary with
    | none =>
      -- Block setting secondary without primary present.
      ls.set_primary position
    | some _ =>
      -- Send enter event for new secondary (external); update focus.
      let window := if position.secondary then layout.secondary else layout.primary
      let focus := match window with
        | some w => some w
        | none => ls.focus
      { ls with
        focus := focus
        transactions := ls.transactions ++ [.Secondary position] }

/-- `Layouts::apply_set_active_transaction`.  Leave events are external. -/
def Layouts.apply_set_active_transaction (ls : Layouts) (layout : Option Nat) : Layouts :=
  -- Skip no-ops.
  if layout = ls.active_layout then ls
  else { ls with active_layout := layout }

/-- `Layouts::apply_primary_transaction`. -/
def Layouts.apply_primary_transaction (ls : Layouts) (position : LayoutPosition) : Layouts :=
  match ls.layouts[position.index]? with
  | none => ls
  | some layout =>
    -- Ensure transaction was not invalidated by previous transaction.
    if (position.secondary && layout.secondary.isNone)
        || (!position.secondary && layout.primary.isNone) then
      ls
    else
      -- Split secondary into new layout.
      let ls' := match layout.secondary with
        | some window =>
          { ls with layouts :=
              ls.layouts.set position.index { layout with secondary := none }
                ++ [Layout.new window] }
        | none => ls
      -- Switch to layout with new primary window.
      if position.secondary then
        { ls' with active_layout := some (ls'.layouts.length - 1) }
      else
        { ls' with active_layout := some position.index }

/-- `Layouts::apply_secondary_transaction`. -/
def Layouts.apply_secondary_transaction (ls : Layouts) (position : LayoutPosition) : Layouts :=
  match ls.layouts[position.index]? with
  | none => ls
  | some layout0 =>
    -- Ensure transaction was not invalidated by previous transaction.
    if (position.secondary && layout0.secondary.isNone)
        || (!position.secondary && layout0.primary.isNone) then
      ls
    else
      -- Move secondary to primary if we're taking the primary away
      -- (the leave event for the old secondary is external).
      let layout1 := if !position.secondary
        then Layout.mk layout0.secondary layout0.primary
        else layout0
      -- Remove new secondary from old layout.
      let secondary := layout1.secondary
      let layout2 := { layout1 with secondary := none }
      let has_primary := layout2.primary.isSome
      let ls1 := { ls with layouts := ls.layouts.set position.index layout2 }
      match ls1.active_layout.bind (fun i => (ls1.layouts[i]?).map (fun l => (i, l))) with
      | some (ai, active_layout) =>
        -- Replace the active layout's secondary window.
        let old_secondary := active_layout.secondary
        let replaced := ls1.layouts.set ai { active_layout with secondary := secondary }
        let ls2 := { ls1 with layouts := replaced }
        -- Move active layout's old secondary to its own layout.
        match old_secondary with
        | some window => { ls2 with layouts := ls2.layouts ++ [Layout.new window] }
        | none => ls2
      | none =>
        if !has_primary then
          -- Switch to existing layout when none is active and it is on its own already.
          { ls1 with active_layout := some position.index }
        else
          -- Create new layout when none is currently active.
          let layouts2 := ls1.layouts ++ [Layout.default]
          let index := layouts2.length - 1
          { ls1 with
            active_layout := some index
            layouts := layouts2.set index { Layout.default with secondary := secondary } }

/-- Dispatch of one staged transaction inside `Layouts::apply_transaction`. -/
def Layouts.apply_one (ls : Layouts) (t : LayoutTransaction) : Layouts :=
  match t with
  | .Active layout => ls.apply_set_active_transaction layout
  | .Primary position => ls.apply_primary_transaction position
  | .Secondary position => ls.apply_secondary_transaction position

/-- The per-layout body of the `retain_mut` reaping loop in
`Layouts::apply_transaction`: drop a dead secondary, promote the secondary
when the primary is dead, and report whether the layout is retained.
`Window::apply_transaction` on a live window mutates window-internal state
outside this model. -/
def Layouts.reap_step (alive : WindowId → Bool) (layout : Layout) : Layout × Bool :=
  -- Update secondary window transaction and liveliness.
  let layout := match layout.secondary with
    | some s => if alive s then layout else { layout with secondary := none }
    | none => layout
  -- Update primary window transaction and liveliness.
  let layout := match layout.primary with
    | some p => if alive p then layout else Layout.mk layout.secondary none
    | none => layout
  -- Remove the layout when all windows have died.
  (layout, layout.primary.isSome || layout.secondary.isSome)

/-- The `retain_mut` loop of `Layouts::apply_transaction`: walks the layouts
with the running original index, keeps the retained ones and adjusts the
active index exactly as the source does (`Some(index).cmp(&active)` with
`checked_sub`). -/
def Layouts.reap_go (alive : WindowId → Bool) :
    List Layout → Nat → Option Nat → List Layout × Option Nat
  | [], _, active => ([], active)
  | layout :: rest, index, active =>
    let step := Layouts.reap_step alive layout
    let active' :=
      if !step.2 then
        match active with
        | some a =>
          -- Decrement index when layout before it is removed.
          if index < a then (if a = 0 then none else some (a - 1))
          -- Clear active layout when it was removed.
          else if index = a then none
          else active
        | none => active
      else active
    let tail := Layouts.reap_go alive rest (index + 1) active'
    (if step.2 then step.1 :: tail.1 else tail.1, tail.2)

/-- `Layouts::apply_transaction`: apply all staged transactions in order,
clear the staging list, then reap dead windows and empty layouts. -/
def Layouts.apply_transaction (ls : Layouts) (alive : WindowId → Bool) : Layouts :=
  let ls1 := ls.transactions.foldl Layouts.apply_one ls
  let reaped := Layouts.reap_go alive ls1.layouts 0 ls1.active_layout
  { ls1 with transactions := [], layouts := reaped.1, active_layout := reaped.2 }

/-- Helper for `Layouts::position`: scan with the running index; within one
layout the primary slot is matched before the secondary slot. -/
def Layouts.position_go (window : WindowId) : List Layout → Nat → Option LayoutPosition
  | [], _ => none
  | layout :: rest, i =>
    if layout.primary = some window then some (LayoutPosition.new i false)
    else if layout.secondary = some window then some (LayoutPosition.new i true)
    else Layouts.position_go window rest (i + 1)

/-- `Layouts::position` (`Rc::ptr_eq` is identity of `WindowId`). -/
def Layouts.position (ls : Layouts) (window : WindowId) : Option LayoutPosition :=
  Layouts.position_go window ls.layouts 0

/-- `Layouts::window_at`. -/
def Layouts.window_at (ls : Layouts) (position : LayoutPosition) : Option WindowId :=
  (ls.layouts[position.index]?).bind fun layout =>
    if position.secondary then layout.secondary else layout.primary

/-- All slot positions holding a given window, in the scan order of
`Layouts::position`.  Used to state occupancy hypotheses. -/
def Layouts.occurrences_go (window : WindowId) : List Layout → Nat → List LayoutPosition
  | [], _ => []
  | layout :: rest, i =>
    ((if layout.primary = some window then [LayoutPosition.new i false] else [])
      ++ (if layout.secondary = some window then [LayoutPosition.new i true] else []))
      ++ Layouts.occurrences_go window rest (i + 1)

/-- All slot positions holding a given window. -/
def Layouts.occurrences (ls : Layouts) (window : WindowId) : List LayoutPosition :=
  Layouts.occurrences_go window ls.layouts 0

/-! ### Geometry: smithay points/sizes/rectangles and `src/src/geometry.rs` -/

/-- `Size<i32, Logical>`. -/
structure ISize where
  w : ℤ
  h : ℤ
deriving DecidableEq, Repr

/-- `Point<i32, Logical>`. -/
structure IPoint where
  x : ℤ
  y : ℤ
deriving DecidableEq, Repr

/-- `Rectangle<i32, Logical>`. -/
structure IRect where
  loc : IPoint
  size : ISize
deriving DecidableEq, Repr

/-- `Point<f64, Logical>` (`f64` over ℚ). -/
structure QPoint where
  x : ℚ
  y : ℚ
deriving DecidableEq, Repr

/-- Component-wise point subtraction (smithay `Point - Point`). -/
def QPoint.sub (p q : QPoint) : QPoint :=
  ⟨p.x - q.x, p.y - q.y⟩

/-- Component-wise point addition (smithay `Point + Point`). -/
def QPoint.add (p q : QPoint) : QPoint :=
  ⟨p.x + q.x, p.y + q.y⟩

/-- `Vector::scale` for `Size<i32, _>` from `src/src/geometry.rs`: each
component is multiplied in `f64` and rounded (`f64::round`) back to `i32`. -/
def ISize.scaleV (s : ISize) (scale : ℚ) : ISize :=
  ⟨rustRound ((s.w : ℚ) * scale), rustRound ((s.h : ℚ) * scale)⟩

/-- `Vector::sub` for `Size<i32, _>` from `src/src/geometry.rs`. -/
def ISize.subV (s t : ISize) : ISize :=
  ⟨s.w - t.w, s.h - t.h⟩

/-- smithay `Point + Size`. -/
def IPoint.addSize (p : IPoint) (s : ISize) : IPoint :=
  ⟨p.x + s.w, p.y + s.h⟩

/-- smithay `Rectangle::to_f64().contains(point)`: half-open on the far
edges. -/
def IRect.containsQ (r : IRect) (p : QPoint) : Prop :=
  (r.loc.x : ℚ) ≤ p.x ∧ p.x < (r.loc.x : ℚ) + (r.size.w : ℚ)
    ∧ (r.loc.y : ℚ) ≤ p.y ∧ p.y < (r.loc.y : ℚ) + (r.size.h : ℚ)

instance (r : IRect) (p : QPoint) : Decidable (r.containsQ p) := by
  unfold IRect.containsQ
  infer_instance

/-- Device orientation (`Orientation`, `src/catacomb_ipc/src/lib.rs`). -/
inductive Orientation where
  | Portrait
  | InversePortrait
  | Landscape
  | InverseLandscape
deriving DecidableEq, Repr

/-- Modelled from the spec: the `Output` type of `src/output.rs` is not part
of this tree.  Section 6 of the specification describes it as "an `output`
object exposing logical/physical size, scale, orientation transform, and
reserved (exclusive) regions".  It is modelled as a record of the
observations the embedded code reads from it: the overview rectangle
(`available_overview`), the primary rectangle with and without a visible
secondary (`primary_rectangle`), the secondary rectangle, the
window-manager size (`wm_size`), an opaque canvas snapshot and the current
orientation (written by `set_orientation`). -/
structure Output where
  available_overview : IRect
  primary_with_secondary : IRect
  primary_alone : IRect
  secondary_rect : IRect
  wm_size : ISize
  canvas : Nat
  orientation : Orientation
deriving DecidableEq, Repr

/-- `Output::primary_rectangle(secondary_visible)` on the modelled output. -/
def Output.primary_rectangle (o : Output) (secondary_visible : Bool) : IRect :=
  if secondary_visible then o.primary_with_secondary else o.primary_alone

/-- `Output::set_orientation` on the modelled output. -/
def Output.set_orientation (o : Output) (orientation : Orientation) : Output :=
  { o with orientation := orientation }

/-! ### Layer-shell windows: `src/src/layer.rs` -/

/-- Layer shell windows (`Layers`); `focus` holds a `WlSurface` handle,
modelled as an opaque identifier. -/
structure Layers where
  focus : Option Nat
  background : List WindowId
  bottom : List WindowId
  top : List WindowId
  overlay : List WindowId
deriving DecidableEq, Repr

/-- `Layers::default()`. -/
def Layers.default : Layers :=
  ⟨none, [], [], [], []⟩

/-- `Layers::iter`: background, bottom, top, overlay. -/
def Layers.iter (l : Layers) : List WindowId :=
  l.background ++ l.bottom ++ l.top ++ l.overlay

/-- Modelled from the spec: `Layers::len` is called by
`Windows::update_transaction` ("marks the display dirty if the number of
visible windows changed") but its definition is not in this tree's
`src/src/layer.rs`; it is the number of layer-shell windows. -/
def Layers.len (l : Layers) : Nat :=
  l.iter.length

/-- `Layers::apply_window_transactions`: windows are visited back to front,
live ones get their window transaction applied (window-internal state outside
this model), dead ones are removed; the net effect on the identifier list is
an order-preserving filter by liveness. -/
def Layers.apply_window_transactions (alive : WindowId → Bool) (windows : List WindowId) :
    List WindowId :=
  windows.filter alive

/-- `Layers::apply_transaction`. -/
def Layers.apply_transaction (l : Layers) (alive : WindowId → Bool) : Layers :=
  { l with
    background := Layers.apply_window_transactions alive l.background
    bottom := Layers.apply_window_transactions alive l.bottom
    top := Layers.apply_window_transactions alive l.top
    overlay := Layers.apply_window_transactions alive l.overlay }

/-! ### Overview: `src/src/overview.rs` -/

/-- Percentage of output width reserved for the main window in the overview. -/
def FG_OVERVIEW_PERCENTAGE : ℚ := 3/4

/-- Percentage of output width reserved for the secondary windows in the
overview. -/
def BG_OVERVIEW_PERCENTAGE : ℚ := 7/10

/-- Animation speed for the return from close, lower means faster. -/
def VERTICAL_DRAG_ANIMATION_SPEED : ℚ := 3/10

/-- Animation speed for the return to nearest integer x-offset. -/
def HORIZONTAL_DRAG_ANIMATION_SPEED : ℚ := 75

/-- Spacing between windows in the overview, as percentage from overview
width. -/
def OVERVIEW_SPACING_PERCENTAGE : ℚ := 3/4

/-- Maximum amount of overdrag before inputs are ignored. -/
def OVERDRAG_LIMIT : ℚ := 1/4

/-- Purpose of an overview touch drag action (`DragAction`).  `Close` holds a
`Weak<RefCell<Window>>`, modelled by the target's identity. -/
inductive DragAction where
  | Close (window : WindowId)
  | Cycle
  | None
deriving DecidableEq, Repr

/-- Overview view state (`Overview`).  `hold_timer` holds an event-loop
registration token (external); only its presence is modelled.
`closing_window` is a `Weak` handle, `none` modelling the empty `Weak::new()`
default.  `last_animation_step` is an `Instant` in milliseconds. -/
structure Overview where
  hold_timer : Option Unit
  closing_window : Option WindowId
  last_drag_point : QPoint
  last_animation_step : Option Nat
  drag_action : DragAction
  x_offset : ℚ
  y_offset : ℚ
deriving DecidableEq, Repr

/-- `Overview::new`. -/
def Overview.new (active_offset : ℚ) : Overview :=
  { x_offset := active_offset
    last_animation_step := none
    last_drag_point := ⟨0, 0⟩
    closing_window := none
    drag_action := .None
    hold_timer := none
    y_offset := 0 }

/-- Window placed in the application overview (`OverviewPosition`). -/
structure OverviewPosition where
  bounds : IRect
  scale : ℚ
deriving DecidableEq, Repr

/-- `OverviewPosition::new`: the rectangle for a window in the overview.  The
horizontal spacing offset is an `as i32` cast, hence truncated. -/
def OverviewPosition.new (available_rect : IRect) (center_offset_x window_offset : ℚ) :
    OverviewPosition :=
  -- Calculate window's distance from the center of the overview.
  let delta := center_offset_x - (rustRound window_offset : ℚ)
  -- Calculate the window's scale.
  let scale := BG_OVERVIEW_PERCENTAGE
    + (FG_OVERVIEW_PERCENTAGE - BG_OVERVIEW_PERCENTAGE) * (1 - |delta|)
  -- Calculate the window's size and position.
  let bounds_size := available_rect.size.scaleV scale
  let bounds_loc := available_rect.loc.addSize ((available_rect.size.subV bounds_size).scaleV (1/2))
  let shift := rustTrunc (delta * (available_rect.size.w : ℚ) * OVERVIEW_SPACING_PERCENTAGE)
  ⟨⟨⟨bounds_loc.x + shift, bounds_loc.y⟩, bounds_size⟩, scale⟩

/-- `OverviewPosition::secondary_bounds`. -/
def OverviewPosition.secondary_bounds (p : OverviewPosition) (output : Output) : IRect :=
  let primary_size := (output.primary_rectangle true).size
  let secondary_offset := (primary_size.scaleV p.scale).h
  ⟨⟨p.bounds.loc.x, p.bounds.loc.y + secondary_offset⟩,
    ⟨p.bounds.size.w, p.bounds.size.h - secondary_offset⟩⟩

/-- Loop body of `Overview::layout_position`.  The source iterates offsets
`x_offset - 1`, `x_offset`, `x_offset + 1` (a `while offset < x_offset + 2`
loop with unit steps); the `?` operator on `usize::try_from(...).ok()?` and on
`layouts.get(...)?` aborts the whole function with `None`. -/
def Overview.layout_position_go (output : Output) (layouts : Layouts) (point : QPoint)
    (x_offset : ℚ) : List ℚ → Option LayoutPosition
  | [] => none
  | offset :: rest =>
    let available := output.available_overview
    let position := OverviewPosition.new available x_offset offset
    if position.bounds.containsQ point then
      -- usize::try_from(-offset.round() as isize).ok()?
      if 0 ≤ -(rustRound offset) then
        let layout_index := (-(rustRound offset)).toNat
        match layouts.get layout_index with
        | none => none
        | some layout =>
          -- Check if click was within secondary window.
          if layout.secondary.isSome
              ∧ (position.secondary_bounds output).containsQ point then
            some (LayoutPosition.new layout_index true)
          -- Check if click was within primary window.
          else if layout.primary.isSome ∧ position.bounds.containsQ point then
            some (LayoutPosition.new layout_index false)
          else
            Overview.layout_position_go output layouts point x_offset rest
      else none
    else
      Overview.layout_position_go output layouts point x_offset rest

/-- `Overview::layout_position`. -/
def Overview.layout_position (ov : Overview) (output : Output) (layouts : Layouts)
    (point : QPoint) : Option LayoutPosition :=
  Overview.layout_position_go output layouts point ov.x_offset
    [ov.x_offset - 1, ov.x_offset, ov.x_offset + 1]

/-- `Overview::clamp_offset`: clamp the X/Y offsets, taking overdrag into
account, and animate the bounce-back.  `now` is the current `Instant`; the
elapsed milliseconds of the source are framerate-independent deltas. -/
def Overview.clamp_offset (ov : Overview) (window_count : ℤ) (now : Nat) : Overview :=
  -- Limit maximum overdrag.
  let min_offset : ℚ := -(window_count : ℚ) + 1
  let x1 := rustClamp ov.x_offset (min_offset - OVERDRAG_LIMIT) OVERDRAG_LIMIT
  match ov.last_animation_step with
  | none => { ov with x_offset := x1 }
  | some last_animation_step =>
    -- Compute framerate-independent delta.
    let delta : ℚ := ((now - last_animation_step : Nat) : ℚ)
    let horizontal_delta := delta / HORIZONTAL_DRAG_ANIMATION_SPEED
    let vertical_delta := delta / VERTICAL_DRAG_ANIMATION_SPEED
    -- Horizontal bounce-back to closest valid integer offset.
    let target := min (max (rustRound x1 : ℚ) min_offset) 0
    let fract := rustFract x1
    let x2 :=
      if x1 > 0 ∨ fract ≤ -(1/2) then max (x1 - horizontal_delta) target
      else if x1 < min_offset ∨ fract ≤ F64_EPSILON then min (x1 + horizontal_delta) target
      else x1
    -- Close window bounce-back (`copysign`; ℚ has no negative zero, the sign
    -- of zero is positive as for `+0.0`).
    let mag := min vertical_delta |ov.y_offset|
    let y2 := ov.y_offset - (if ov.y_offset < 0 then -mag else mag)
    { ov with x_offset := x2, y_offset := y2, last_animation_step := some now }

/-- `Overview::overdrag_limited` (a `bool` in the source, stated as its
decidable proposition). -/
def Overview.overdrag_limited (ov : Overview) (window_count : Nat) : Prop :=
  let min_offset : ℚ := -(window_count : ℚ) + 1
  ov.x_offset ≤ min_offset - OVERDRAG_LIMIT ∨ ov.x_offset ≥ OVERDRAG_LIMIT

instance (ov : Overview) (window_count : Nat) :
    Decidable (ov.overdrag_limited window_count) := by
  unfold Overview.overdrag_limited
  infer_instance

/-- Drag and drop windows into tiling position (`DragAndDrop`). -/
structure DragAndDrop where
  window_position : QPoint
  touch_position : QPoint
  window : WindowId
  overview_x_offset : ℚ
  window_bounds : IRect
  scale : ℚ
deriving DecidableEq, Repr

/-! ### Root window container: `src/src/windows/mod.rs` -/

/-- Maximum time before a transaction is cancelled
(`MAX_TRANSACTION_MILLIS`). -/
def MAX_TRANSACTION_MILLIS : Nat := 1000

/-- The free function `windows::start_transaction`, acting on the value of
the global `TRANSACTION_START` millisecond clock: arm it with the current
time only when it is not already armed. -/
def start_transaction (now start : Nat) : Nat :=
  -- Skip when transaction is already active.
  if start ≠ 0 then start else now

/-- Compositor window arrangements (`View`). -/
inductive View where
  | Overview (overview : Catacomb.Overview)
  | DragAndDrop (dnd : Catacomb.DragAndDrop)
  | Fullscreen (window : WindowId)
  | Workspace
deriving DecidableEq, Repr

/-- Atomic changes to `Windows` (`windows::Transaction`, the root module's
own `Transaction` struct, distinct from the layout one). -/
structure WindowsTransaction where
  view : Option View
deriving DecidableEq, Repr

/-- Modelled from the spec: `TouchState` lives in `src/input.rs`, which is
not part of this tree.  The embedded code only ever calls
`cancel_velocity` on it ("clamping triggers velocity cancellation in the
caller's fling/inertia handling"), so it is modelled by that one flag. -/
structure TouchState where
  velocity_cancelled : Bool
deriving DecidableEq, Repr

/-- `TouchState::cancel_velocity` on the modelled touch state. -/
def TouchState.cancel_velocity (t : TouchState) : TouchState :=
  { t with velocity_cancelled := true }

/-- Container tracking all known clients (`Windows`).  The fields holding
pure collaborator handles (`orphan_popups`, `event_loop`, `activated`,
`textures`, `start_time`) are external to the model; the global
`TRANSACTION_START` atomic is carried here as `transaction_start` since this
is the only state that reads or writes it. -/
structure Windows where
  dirty : Bool
  layouts : Layouts
  layers : Layers
  view : View
  transaction : Option WindowsTransaction
  canvas : Nat
  output : Output
  unlocked_orientation : Orientation
  orientation_locked : Bool
  transaction_start : Nat
deriving DecidableEq, Repr

/-- `Windows::update_transaction`, with the wall clock, window liveness and
per-window acknowledgement state passed in as the observations the source
reads from collaborators.  Returns the Rust return value (remaining
milliseconds, if any) together with the updated state. -/
def Windows.update_transaction (w : Windows) (now : Nat) (alive done : WindowId → Bool) :
    Option Nat × Windows :=
  -- Skip update if no transaction is active.
  let start := w.transaction_start
  if start = 0 then (none, w)
  else
    -- Check if the transaction requires updating.
    let elapsed := now - start
    let finished := w.layouts.windowIds.all done && (w.layers.iter.all done)
    if elapsed ≤ MAX_TRANSACTION_MILLIS && !finished then
      -- Abort if the transaction is still pending.
      (some (MAX_TRANSACTION_MILLIS - elapsed), w)
    else
      -- Clear transaction timer.
      let w0 := { w with transaction_start := 0 }
      -- Store old visible window count to see if we need to redraw.
      let old_layout_count := w0.layouts.active.window_count
      let old_layer_count := w0.layers.len
      -- Apply layout/liveliness changes.
      let layouts' := w0.layouts.apply_transaction alive
      -- Update layer shell windows.
      let layers' := w0.layers.apply_transaction alive
      -- Apply window management changes (`transaction.take()`).
      let staged_view := w0.transaction.bind (fun t => t.view)
      let dirty1 := w0.dirty || staged_view.isSome
      let view1 := staged_view.getD w0.view
      let canvas' := w0.output.canvas
      -- Close overview if all layouts died.
      let view2 := if layouts'.is_empty then View.Workspace else view1
      -- Redraw if a visible window has died.
      let dirty2 := dirty1
        || decide (old_layout_count ≠ layouts'.active.window_count)
        || decide (old_layer_count ≠ layers'.len)
      (none,
        { w0 with
          layouts := layouts'
          layers := layers'
          transaction := none
          view := view2
          canvas := canvas'
          dirty := dirty2 })

/-- `Windows::update_orientation`.  The `resize_all` call issues resize
requests to client surfaces (external). -/
def Windows.update_orientation (w : Windows) (now : Nat) (orientation : Orientation) : Windows :=
  let w := { w with unlocked_orientation := orientation }
  -- Ignore orientation changes during orientation lock.
  if w.orientation_locked then w
  else
    -- Start transaction to ensure output transaction will be applied.
    let w := { w with transaction_start := start_transaction now w.transaction_start }
    -- Update output orientation.
    { w with output := w.output.set_orientation orientation }

/-- `Windows::lock_orientation`. -/
def Windows.lock_orientation (w : Windows) (now : Nat) (orientation : Option Orientation) :
    Windows :=
  -- Change to the new locked orientation.
  let w := match orientation with
    | some o => w.update_orientation now o
    | none => w
  { w with orientation_locked := true }

/-- `Windows::unlock_orientation`. -/
def Windows.unlock_orientation (w : Windows) (now : Nat) : Windows :=
  let w := { w with orientation_locked := false }
  w.update_orientation now w.unlocked_orientation

/-- Horizontal sensitivity of the application overview
(`OVERVIEW_HORIZONTAL_SENSITIVITY`). -/
def OVERVIEW_HORIZONTAL_SENSITIVITY : ℚ := 250

/-- `Windows::on_drag`.  The hold-timer cancellation acts on the event loop
(external) and clears `hold_timer`; `touch_state.cancel_velocity` is the only
touch-state interaction. -/
def Windows.on_drag (w : Windows) (touch_state : TouchState) (point : QPoint) :
    Windows × TouchState :=
  match w.view with
  | View.DragAndDrop dnd =>
    -- Cancel velocity and clamp if touch position is outside the screen.
    let output_size := w.output.wm_size
    let outside := point.x < 0 ∨ (output_size.w : ℚ) < point.x
      ∨ point.y < 0 ∨ (output_size.h : ℚ) < point.y
    let point' := if outside
      then QPoint.mk (rustClamp point.x 0 ((output_size.w : ℚ) - 1))
        (rustClamp point.y 0 ((output_size.h : ℚ) - 1))
      else point
    let touch_state := if outside then touch_state.cancel_velocity else touch_state
    let delta := point'.sub dnd.touch_position
    let dnd' := { dnd with
      touch_position := point'
      window_position := dnd.window_position.add delta }
    -- Redraw when the D&D window is moved.
    ({ w with view := .DragAndDrop dnd', dirty := true }, touch_state)
  | View.Overview overview =>
    let delta := point.sub overview.last_drag_point
    let overview := { overview with last_drag_point := point }
    -- Lock current drag direction if it hasn't been determined yet.
    let overview :=
      if overview.drag_action = .None then
        if |delta.x| < |delta.y| then
          let under := (overview.layout_position w.output w.layouts point).bind
            (fun position => w.layouts.window_at position)
          { overview with drag_action :=
              match under with
              | some window => DragAction.Close window
              | none => DragAction.None }
        else
          { overview with drag_action := .Cycle }
      else overview
    -- Update drag action.
    let overview := match overview.drag_action with
      | .Cycle => { overview with
          x_offset := overview.x_offset + delta.x / OVERVIEW_HORIZONTAL_SENSITIVITY }
      | .Close _ => { overview with y_offset := overview.y_offset + delta.y }
      | .None => overview
    -- Cancel velocity once drag actions are completed.
    let touch_state := if overview.overdrag_limited w.layouts.len
      then touch_state.cancel_velocity else touch_state
    let overview := { overview with last_animation_step := none, hold_timer := none }
    -- Redraw when cycling through the overview.
    ({ w with view := .Overview overview, dirty := true }, touch_state)
  | View.Fullscreen _ => (w, touch_state)
  | View.Workspace => (w, touch_state)

/-! ### Helper lemmas about the layout scan -/

/-- Soundness of the `Layouts::position` scan: a returned position is at or
after the start index and its slot holds the searched window. -/
theorem Layouts.position_go_sound (w : WindowId) (L : List Layout) :
    ∀ (i : Nat) (q : LayoutPosition), Layouts.position_go w L i = some q →
      i ≤ q.index ∧ ((L[q.index - i]?).bind
        (fun l => if q.secondary then l.secondary else l.primary)) = some w := by
  induction L with
  | nil =>
    intro i q h
    simp [Layouts.position_go] at h
  | cons l rest ih =>
    intro i q h
    rw [Layouts.position_go] at h
    by_cases hp : l.primary = some w
    · rw [if_pos hp] at h
      have hq := Option.some.inj h
      subst hq
      simp [LayoutPosition.new, hp]
    · rw [if_neg hp] at h
      by_cases hs : l.secondary = some w
      · rw [if_pos hs] at h
        have hq := Option.some.inj h
        subst hq
        simp [LayoutPosition.new, hs]
      · rw [if_neg hs] at h
        obtain ⟨h1, h2⟩ := ih (i + 1) q h
        refine ⟨by omega, ?_⟩
        have hk : q.index - i = (q.index - (i + 1)) + 1 := by omega
        rw [hk, List.getElem?_cons_succ]
        exact h2

/-- Completeness of the `Layouts::position` scan: if some slot holds the
searched window, the scan returns a position. -/
theorem Layouts.position_go_complete (w : WindowId) (L : List Layout) :
    ∀ (i j : Nat) (sec : Bool),
      ((L[j]?).bind (fun l => if sec then l.secondary else l.primary)) = some w →
      (Layouts.position_go w L i).isSome := by
  induction L with
  | nil =>
    intro i j sec h
    simp at h
  | cons l rest ih =>
    intro i j sec h
    rw [Layouts.position_go]
    by_cases hp : l.primary = some w
    · rw [if_pos hp]
      rfl
    · rw [if_neg hp]
      by_cases hs : l.secondary = some w
      · rw [if_pos hs]
        rfl
      · rw [if_neg hs]
        cases j with
        | zero =>
          rw [List.getElem?_cons_zero] at h
          cases sec with
          | false => simp [hp] at h
          | true => simp [hs] at h
        | succ k =>
          rw [List.getElem?_cons_succ] at h
          exact ih (i + 1) k sec h

/-! ### Claims C9, C10, C2, C3, C4 -/

/-- C9: `Layouts::active` is total and never panics: whenever `active_layout`
is `None` or not a valid index into the layouts vector, it returns the shared
empty default layout, so iterating the visible windows of the active layout
yields zero windows instead of failing. -/
theorem C9_active_total (ls : Layouts)
    (h : ∀ i, ls.active_layout = some i → ls.layouts.length ≤ i) :
    ls.active = DEFAULT_LAYOUT ∧ DEFAULT_LAYOUT.primary = none
      ∧ DEFAULT_LAYOUT.secondary = none ∧ ls.visible_windows = [] := by
  have hbind : (ls.active_layout.bind fun i => ls.layouts[i]?) = none := by
    cases hA : ls.active_layout with
    | none => rfl
    | some i =>
      simp only [Option.some_bind]
      exact List.getElem?_eq_none (h i hA)
  refine ⟨?_, rfl, rfl, ?_⟩
  · unfold Layouts.active
    rw [hbind]
    rfl
  · unfold Layouts.visible_windows Layouts.active
    rw [hbind]
    rfl

/-- C9 witness: an out-of-bounds active index on a one-layout state falls
back to the default layout with no visible windows. -/
theorem C9_active_total_witness :
    (Layouts.mk none [] (some 5) [⟨some 0, none⟩]).active = DEFAULT_LAYOUT
      ∧ DEFAULT_LAYOUT.primary = none ∧ DEFAULT_LAYOUT.secondary = none
      ∧ (Layouts.mk none [] (some 5) [⟨some 0, none⟩]).visible_windows = [] :=
  C9_active_total _ (by
    intro i hi
    injection hi with hi
    subst hi
    decide)

/-- C10: `Layouts::position` and `Layouts::window_at` are mutually inverse on
occupied slots: when window `w` is stored in exactly the slot `p` (stated as:
`window_at p` yields `w` and no other position does), `position w` returns
`p` and `window_at p` returns `w`. -/
theorem C10_position_window_at_inverse (ls : Layouts) (w : WindowId) (p : LayoutPosition)
    (h1 : ls.window_at p = some w)
    (h2 : ∀ q, ls.window_at q = some w → q = p) :
    ls.position w = some p ∧ ls.window_at p = some w := by
  have hsome := Layouts.position_go_complete w ls.layouts 0 p.index p.secondary h1
  obtain ⟨q, hq⟩ := Option.isSome_iff_exists.mp hsome
  obtain ⟨-, hslot⟩ := Layouts.position_go_sound w ls.layouts 0 q hq
  have hwq : ls.window_at q = some w := by
    simpa [Layouts.window_at, Nat.sub_zero] using hslot
  have hqp : q = p := h2 q hwq
  subst hqp
  exact ⟨hq, h1⟩

/-- C10 witness: in a single layout holding primary 3 and secondary 4, the
secondary slot and window 4 are matched both ways. -/
theorem C10_position_window_at_inverse_witness :
    (Layouts.mk none [] none [⟨some 3, some 4⟩]).position 4 = some ⟨0, true⟩
      ∧ (Layouts.mk none [] none [⟨some 3, some 4⟩]).window_at ⟨0, true⟩ = some 4 :=
  C10_position_window_at_inverse _ 4 ⟨0, true⟩ (by decide) (by
    intro q hq
    obtain ⟨qi, qs⟩ := q
    cases qi with
    | zero => cases qs <;> simp_all [Layouts.window_at]
    | succ k => simp [Layouts.window_at] at hq)

/-- C2 (code bug): from layouts `[dead, alive, dead]` with no active layout,
staging `set_active(Some(2))` and applying the transaction leaves
`active_layout = Some(1)` while only one layout remains — an out-of-bounds
active index.  The `retain_mut` loop of `apply_transaction` compares the
original index of each pruned layout against the already-decremented active
index, so the removed active layout is neither cleared (as the source comment
"Clear active layout when it was removed" intends) nor kept valid. -/
theorem C2_invalid_active_after_apply :
    (((Layouts.mk none [] none
        [⟨some 0, none⟩, ⟨some 1, none⟩, ⟨some 2, none⟩]).set_active (some 2)).apply_transaction
          (fun id => id == 1)).active_layout = some 1
    ∧ (((Layouts.mk none [] none
        [⟨some 0, none⟩, ⟨some 1, none⟩, ⟨some 2, none⟩]).set_active (some 2)).apply_transaction
          (fun id => id == 1)).layouts.length = 1
    ∧ ((((Layouts.mk none [] none
        [⟨some 0, none⟩, ⟨some 1, none⟩, ⟨some 2, none⟩]).set_active (some 2)).apply_transaction
          (fun id => id == 1)).active_layout.bind
        (fun i => (((Layouts.mk none [] none
          [⟨some 0, none⟩, ⟨some 1, none⟩, ⟨some 2, none⟩]).set_active
            (some 2)).apply_transaction (fun id => id == 1)).layouts[i]?)) = none := by
  decide

/-- The state of the C4 scenario after staging `set_secondary` on the active
layout's own primary window. -/
def c4_staged : Layouts :=
  (Layouts.mk none [] (some 0) [⟨some 0, none⟩]).set_secondary ⟨0, false⟩

/-- C4 (code bug): with a single layout holding only primary window 0 and
active index 0, staging `set_secondary(LayoutPosition(0, false))` (the active
layout's own primary) and applying the transaction leaves the persistent
state `[Layout(primary: None, secondary: Some(0))]` — a secondary window
without a primary, after `apply_transaction` completed (not a transient
reflow state). -/
theorem C4_secondary_without_primary :
    (c4_staged.apply_transaction (fun _ => true)).layouts = [⟨none, some 0⟩]
    ∧ (c4_staged.apply_transaction (fun _ => true)).active_layout = some 0
    ∧ (c4_staged.apply_transaction (fun _ => true)).transactions = [] := by
  decide

/-- The C3 scenario with two staged transactions: first
`set_secondary(LayoutPosition(1, true))`, then
`set_primary(LayoutPosition(0, true))`. -/
def c3_staged : Layouts :=
  ((Layouts.mk none [] (some 0) [⟨some 0, some 1⟩, ⟨some 2, some 3⟩]).set_secondary
    ⟨1, true⟩).set_primary ⟨0, true⟩

/-- The C3 scenario immediately before the staged `Primary` change is
applied: the earlier `Secondary` transaction has already been applied. -/
def c3_mid : Layouts :=
  c3_staged.apply_secondary_transaction ⟨1, true⟩

/-- C3 counterexample: when the `Primary` change for slot `(0, secondary)`
was staged, that slot held window 1; immediately before it is applied the
earlier `Secondary` transaction has moved window 3 into that slot — the
"expected window present when the change was staged" is gone — yet
`apply_primary_transaction` is not a no-op: it re-slots window 3 and
switches the active layout.  The re-validation therefore does not check that
the slot still holds the same window. -/
theorem C3_counterexample :
    c3_staged.window_at ⟨0, true⟩ = some 1
    ∧ c3_mid.window_at ⟨0, true⟩ = some 3
    ∧ c3_mid.apply_primary_transaction ⟨0, true⟩ ≠ c3_mid
    ∧ (c3_mid.apply_primary_transaction ⟨0, true⟩).active_layout = some 3
    ∧ c3_mid.active_layout = some 0 := by
  decide

/-- C3 amended: the re-validation performed by `apply_primary_transaction`
and `apply_secondary_transaction` immediately before applying only checks
that the referenced slot still holds some window; when the slot is empty or
the layout index is invalid (`window_at` yields nothing) the staged change
silently no-ops, leaving the `Layouts` state unchanged. -/
theorem C3_stale_slot_noop (ls : Layouts) (position : LayoutPosition)
    (h : ls.window_at position = none) :
    ls.apply_primary_transaction position = ls
      ∧ ls.apply_secondary_transaction position = ls := by
  unfold Layouts.window_at at h
  constructor
  · unfold Layouts.apply_primary_transaction
    cases hg : ls.layouts[position.index]? with
    | none => simp
    | some layout =>
      rw [hg] at h
      simp only [Option.some_bind] at h
      cases hps : position.secondary with
      | false =>
        rw [hps] at h
        simp only [Bool.false_eq_true, if_false] at h
        simp [hps, h]
      | true =>
        rw [hps] at h
        simp only [if_true] at h
        simp [hps, h]
  · unfold Layouts.apply_secondary_transaction
    cases hg : ls.layouts[position.index]? with
    | none => simp
    | some layout =>
      rw [hg] at h
      simp only [Option.some_bind] at h
      cases hps : position.secondary with
      | false =>
        rw [hps] at h
        simp only [Bool.false_eq_true, if_false] at h
        simp [hps, h]
      | true =>
        rw [hps] at h
        simp only [if_true] at h
        simp [hps, h]

/-- C3 amended witness: a `Primary`/`Secondary` change staged for the empty
secondary slot of the only layout applies as a no-op. -/
theorem C3_stale_slot_noop_witness :
    (Layouts.mk none [] none [⟨some 5, none⟩]).apply_primary_transaction ⟨0, true⟩
        = Layouts.mk none [] none [⟨some 5, none⟩]
      ∧ (Layouts.mk none [] none [⟨some 5, none⟩]).apply_secondary_transaction ⟨0, true⟩
        = Layouts.mk none [] none [⟨some 5, none⟩] :=
  C3_stale_slot_noop _ ⟨0, true⟩ (by decide)

/-! ### Helper lemmas for C5: reaping is the identity when every window is
alive and every layout is occupied -/

/-- With every window alive, the per-layout reap step keeps the layout
unchanged and retains it iff it is occupied. -/
theorem Layouts.reap_step_all_alive (l : Layout) :
    Layouts.reap_step (fun _ => true) l = (l, l.primary.isSome || l.secondary.isSome) := by
  unfold Layouts.reap_step
  cases hs : l.secondary <;> cases hp : l.primary <;> simp [hs, hp]

/-- With every window alive and every layout occupied, the reaping loop keeps
the layout list and the active index unchanged. -/
theorem Layouts.reap_go_all_alive (L : List Layout)
    (hL : ∀ l ∈ L, (l.primary.isSome || l.secondary.isSome) = true) :
    ∀ (i : Nat) (active : Option Nat), Layouts.reap_go (fun _ => true) L i active = (L, active) := by
  induction L with
  | nil =>
    intro i active
    rfl
  | cons l rest ih =>
    intro i active
    have hl : (l.primary.isSome || l.secondary.isSome) = true := hL l (List.mem_cons_self l rest)
    simp only [Layouts.reap_go, Layouts.reap_step_all_alive, hl, Bool.not_true,
      Bool.false_eq_true, if_false, if_true,
      ih (fun x hx => hL x (List.mem_cons_of_mem l hx)) (i + 1) active]

/-- Staging a single `set_active` on a state with no pending transactions
produces an explicit record. -/
theorem Layouts.set_active_record (ls : Layouts) (idx : Option Nat)
    (htx : ls.transactions = []) :
    ∃ F, ls.set_active idx
      = Layouts.mk F [.Active idx] ls.active_layout ls.layouts := by
  unfold Layouts.set_active
  rw [htx]
  exact ⟨_, rfl⟩

/-- Applying the transaction right after staging a single `set_active` on a
clean state (no staged transactions, all windows alive, all layouts
occupied): the staged index becomes active, everything but the focus is
untouched. -/
theorem Layouts.set_active_apply_all_alive (ls : Layouts) (idx : Option Nat)
    (htx : ls.transactions = [])
    (hocc : ∀ l ∈ ls.layouts, (l.primary.isSome || l.secondary.isSome) = true) :
    ∃ F, (ls.set_active idx).apply_transaction (fun _ => true)
      = Layouts.mk F [] idx ls.layouts := by
  obtain ⟨F, hF⟩ := Layouts.set_active_record ls idx htx
  refine ⟨F, ?_⟩
  rw [hF]
  unfold Layouts.apply_transaction
  simp only [List.foldl_cons, List.foldl_nil, Layouts.apply_one]
  unfold Layouts.apply_set_active_transaction
  by_cases hcase : idx = ls.active_layout
  · rw [if_pos hcase]
    simp only [Layouts.reap_go_all_alive ls.layouts hocc 0 ls.active_layout]
    rw [hcase]
  · rw [if_neg hcase]
    simp only [Layouts.reap_go_all_alive ls.layouts hocc 0 idx]

/-- Staging `cycle_active(n)` from active index `a` and applying the
transaction (all windows alive, all layouts occupied, nothing else staged)
activates index `(a + n) mod layout count` and leaves the layouts
untouched. -/
theorem Layouts.cycle_apply_all_alive (ls : Layouts) (n : ℤ) (a : Nat)
    (htx : ls.transactions = [])
    (hocc : ∀ l ∈ ls.layouts, (l.primary.isSome || l.secondary.isSome) = true)
    (ha : ls.active_layout = some a) :
    ∃ F, (ls.cycle_active n).apply_transaction (fun _ => true)
      = Layouts.mk F [] (some (((((a : ℤ) + n) % (ls.layouts.length : ℤ)).toNat))) ls.layouts := by
  have hc : ls.cycle_active n
      = ls.set_active (some (((((a : ℤ) + n) % (ls.layouts.length : ℤ)).toNat))) := by
    unfold Layouts.cycle_active
    rw [ha]
  rw [hc]
  exact Layouts.set_active_apply_all_alive ls _ htx hocc

/-- C5: with a nonzero layout count (all layouts occupied, all windows
alive), no pending transactions and an active index `a`, staging
`cycle_active(n)` and applying it, then staging `cycle_active(-n)` and
applying it, returns the active index to its starting value modulo the
layout count. -/
theorem C5_cycle_roundtrip (ls : Layouts) (n : ℤ) (a : Nat)
    (hne : ls.layouts ≠ [])
    (htx : ls.transactions = [])
    (hocc : ∀ l ∈ ls.layouts, (l.primary.isSome || l.secondary.isSome) = true)
    (ha : ls.active_layout = some a) :
    ((((ls.cycle_active n).apply_transaction (fun _ => true)).cycle_active (-n)).apply_transaction
        (fun _ => true)).active_layout = some (a % ls.layouts.length) := by
  have hlen : (0:ℤ) < (ls.layouts.length : ℤ) := by
    exact_mod_cast List.length_pos.mpr hne
  obtain ⟨F1, h1⟩ := Layouts.cycle_apply_all_alive ls n a htx hocc ha
  rw [h1]
  obtain ⟨F2, h2⟩ := Layouts.cycle_apply_all_alive
    (Layouts.mk F1 [] (some (((((a : ℤ) + n) % (ls.layouts.length : ℤ)).toNat))) ls.layouts)
    (-n) (((((a : ℤ) + n) % (ls.layouts.length : ℤ)).toNat)) rfl hocc rfl
  rw [h2]
  simp only [Option.some.injEq]
  have hpos : (0:ℤ) ≤ ((a : ℤ) + n) % (ls.layouts.length : ℤ) :=
    Int.emod_nonneg _ (ne_of_gt hlen)
  rw [Int.toNat_of_nonneg hpos]
  have hmod : (((a : ℤ) + n) % (ls.layouts.length : ℤ) + -n) % (ls.layouts.length : ℤ)
      = (a : ℤ) % (ls.layouts.length : ℤ) := by
    rw [Int.emod_add_emod]
    congr 1
    ring
  rw [hmod, ← Int.natCast_mod, Int.toNat_natCast]

/-- C5 witness: three occupied layouts, active index 1, cycling by 2 and then
by -2 returns to active index 1. -/
theorem C5_cycle_roundtrip_witness :
    (((((Layouts.mk none [] (some 1)
        [⟨some 0, none⟩, ⟨some 1, none⟩, ⟨some 2, none⟩]).cycle_active 2).apply_transaction
          (fun _ => true)).cycle_active (-2)).apply_transaction (fun _ => true)).active_layout
      = some (1 % (Layouts.mk none [] (some 1)
        [⟨some 0, none⟩, ⟨some 1, none⟩, ⟨some 2, none⟩]).layouts.length) :=
  C5_cycle_roundtrip _ 2 1 (by decide) rfl (by decide) rfl

/-! ### Claim C8: orientation lock round-trip -/

/-- A sample output used by the concrete window states below. -/
def sample_output : Output :=
  ⟨⟨⟨0, 0⟩, ⟨100, 100⟩⟩, ⟨⟨0, 0⟩, ⟨100, 50⟩⟩, ⟨⟨0, 0⟩, ⟨100, 100⟩⟩,
    ⟨⟨0, 50⟩, ⟨100, 50⟩⟩, ⟨100, 100⟩, 0, .Portrait⟩

/-- The C8 scenario: an unlocked window manager whose sensor state
(`unlocked_orientation`) and output orientation are `Portrait`. -/
def c8_windows : Windows :=
  { dirty := false, layouts := Layouts.default, layers := Layers.default,
    view := .Workspace, transaction := none, canvas := 0, output := sample_output,
    unlocked_orientation := .Portrait, orientation_locked := false, transaction_start := 0 }

/-- C8 counterexample: with the unlocked sensor state `Portrait` immediately
prior to locking, `lock_orientation(Some(Landscape))` followed by
`unlock_orientation()` leaves the output orientation `Landscape`, not the
prior `Portrait`: `lock_orientation` routes through `update_orientation`,
which overwrites the recorded unlocked orientation with the locked one. -/
theorem C8_counterexample :
    ((c8_windows.lock_orientation 5 (some .Landscape)).unlock_orientation
        9).output.orientation = Orientation.Landscape
      ∧ c8_windows.unlocked_orientation = Orientation.Portrait
      ∧ c8_windows.orientation_locked = false
      ∧ c8_windows.output.orientation = Orientation.Portrait
      ∧ Orientation.Landscape ≠ Orientation.Portrait := by
  decide

/-- C8 amended: for every prior state and every orientation `o`,
`lock_orientation(Some(o))` followed by `unlock_orientation()` (with no
intervening sensor updates) leaves the output orientation equal to the locked
orientation `o` itself, because locking overwrites the recorded unlocked
sensor orientation with `o`. -/
theorem C8_lock_unlock_yields_locked (w : Windows) (o : Orientation) (now1 now2 : Nat) :
    ((w.lock_orientation now1 (some o)).unlock_orientation now2).output.orientation = o := by
  unfold Windows.unlock_orientation Windows.lock_orientation Windows.update_orientation
  by_cases h : w.orientation_locked
  · simp [h, Output.set_orientation]
  · simp [h, Output.set_orientation]

/-! ### Claim C7: overview offset clamping bounds -/

/-- Bounds for the bounce-back step of `clamp_offset`: whichever branch is
taken, a value between `lo` and `OVERDRAG_LIMIT` moved toward a target in the
same range stays in the range. -/
theorem clamp_step_bounds (x target hd lo : ℚ) (c1 c2 : Prop) [Decidable c1] [Decidable c2]
    (hx_lb : lo ≤ x) (hx_ub : x ≤ OVERDRAG_LIMIT)
    (ht_lb : lo ≤ target) (ht_ub : target ≤ OVERDRAG_LIMIT) (hhd : 0 ≤ hd) :
    lo ≤ (if c1 then max (x - hd) target else if c2 then min (x + hd) target else x)
      ∧ (if c1 then max (x - hd) target else if c2 then min (x + hd) target else x)
        ≤ OVERDRAG_LIMIT := by
  split_ifs with h1 h2
  · exact ⟨le_trans ht_lb (le_max_right _ _), max_le (by linarith) ht_ub⟩
  · exact ⟨le_min (by linarith) ht_lb, le_trans (min_le_right _ _) ht_ub⟩
  · exact ⟨hx_lb, hx_ub⟩

/-- C7: for every overview state and workspace count at least 1, after
`clamp_offset` runs (including its bounce-back animation adjustments),
`x_offset` lies within `[min_offset - OVERDRAG_LIMIT, OVERDRAG_LIMIT]` for
`min_offset = -(workspace_count - 1)`. -/
theorem C7_clamp_offset_bounds (ov : Overview) (window_count : ℤ) (now : Nat)
    (h : 1 ≤ window_count) :
    -(window_count : ℚ) + 1 - OVERDRAG_LIMIT ≤ (ov.clamp_offset window_count now).x_offset
      ∧ (ov.clamp_offset window_count now).x_offset ≤ OVERDRAG_LIMIT := by
  have hm : -(window_count : ℚ) + 1 ≤ 0 := by
    have h1 : (1:ℚ) ≤ (window_count : ℚ) := by exact_mod_cast h
    linarith
  have hO : (0:ℚ) < OVERDRAG_LIMIT := by norm_num [OVERDRAG_LIMIT]
  have hx1_ub : rustClamp ov.x_offset (-(window_count : ℚ) + 1 - OVERDRAG_LIMIT) OVERDRAG_LIMIT
      ≤ OVERDRAG_LIMIT := min_le_right _ _
  have hx1_lb : -(window_count : ℚ) + 1 - OVERDRAG_LIMIT
      ≤ rustClamp ov.x_offset (-(window_count : ℚ) + 1 - OVERDRAG_LIMIT) OVERDRAG_LIMIT := by
    unfold rustClamp
    exact le_min (le_max_right _ _) (by linarith)
  unfold Overview.clamp_offset
  cases hlast : ov.last_animation_step with
  | none => exact ⟨hx1_lb, hx1_ub⟩
  | some last =>
    dsimp only
    refine clamp_step_bounds _ _ _ _ _ _ hx1_lb hx1_ub ?_ ?_ ?_
    · exact le_min (le_trans (by linarith) (le_max_right _ _)) (by linarith)
    · exact le_trans (min_le_right _ _) (le_of_lt hO)
    · exact div_nonneg (Nat.cast_nonneg _) (by norm_num [HORIZONTAL_DRAG_ANIMATION_SPEED])

/-- C7 witness: a fresh overview over one workspace stays within the
overdrag bounds. -/
theorem C7_clamp_offset_bounds_witness :
    -((1:ℤ) : ℚ) + 1 - OVERDRAG_LIMIT ≤ ((Overview.new 0).clamp_offset 1 0).x_offset
      ∧ ((Overview.new 0).clamp_offset 1 0).x_offset ≤ OVERDRAG_LIMIT :=
  C7_clamp_offset_bounds (Overview.new 0) 1 0 (by decide)

/-! ### Claim C1: the transaction protocol driver -/

/-- C1: `Windows::update_transaction` — (a) with no armed clock it returns
`None` and changes no state; (b) with an armed clock, elapsed time within the
1000 ms deadline and some layout or layer window not yet acknowledged, it
returns the remaining time and changes no state; (c) otherwise it clears the
clock, applies the staged layout changes, prunes the layers, takes the
pending view swap (layouts before layers before view, the view decision
reading the already-pruned layouts), and marks the display dirty if the
number of visible windows changed. -/
theorem C1_update_transaction (w : Windows) (now : Nat) (alive done : WindowId → Bool)
    (_hclock : w.transaction_start ≤ now) :
    (w.transaction_start = 0 → w.update_transaction now alive done = (none, w))
    ∧ (w.transaction_start ≠ 0 →
        now - w.transaction_start ≤ MAX_TRANSACTION_MILLIS →
        (w.layouts.windowIds.all done && w.layers.iter.all done) = false →
        w.update_transaction now alive done
          = (some (MAX_TRANSACTION_MILLIS - (now - w.transaction_start)), w))
    ∧ (w.transaction_start ≠ 0 →
        ((w.layouts.windowIds.all done && w.layers.iter.all done) = true
          ∨ MAX_TRANSACTION_MILLIS < now - w.transaction_start) →
        (w.update_transaction now alive done).1 = none
        ∧ (w.update_transaction now alive done).2.transaction_start = 0
        ∧ (w.update_transaction now alive done).2.layouts = w.layouts.apply_transaction alive
        ∧ (w.update_transaction now alive done).2.layers = w.layers.apply_transaction alive
        ∧ (w.update_transaction now alive done).2.transaction = none
        ∧ ((w.layouts.apply_transaction alive).is_empty = false →
            (w.update_transaction now alive done).2.view
              = (w.transaction.bind (fun t => t.view)).getD w.view)
        ∧ (w.layouts.active.window_count
              ≠ ((w.layouts.apply_transaction alive)).active.window_count →
            (w.update_transaction now alive done).2.dirty = true)
        ∧ (w.layers.len ≠ (w.layers.apply_transaction alive).len →
            (w.update_transaction now alive done).2.dirty = true)) := by
  refine ⟨?_, ?_, ?_⟩
  · intro h0
    unfold Windows.update_transaction
    rw [if_pos h0]
  · intro h0 hel hfin
    unfold Windows.update_transaction
    rw [if_neg h0]
    dsimp only
    rw [hfin]
    simp [hel]
  · intro h0 hdone
    unfold Windows.update_transaction
    rw [if_neg h0]
    dsimp only
    have hcond : (decide (now - w.transaction_start ≤ MAX_TRANSACTION_MILLIS)
        && !(w.layouts.windowIds.all done && w.layers.iter.all done)) = false := by
      rcases hdone with hfin | hlate
      · rw [hfin]
        simp
      · have : decide (now - w.transaction_start ≤ MAX_TRANSACTION_MILLIS) = false := by
          simp [Nat.not_le.mpr hlate]
        rw [this]
        simp
    rw [hcond]
    simp only [Bool.false_eq_true, if_false]
    refine ⟨by trivial, by trivial, by trivial, by trivial, by trivial, ?_, ?_, ?_⟩
    · intro hemp
      rw [hemp]
      simp
    · intro hne
      simp [Bool.or_eq_true, decide_eq_true_eq]
      tauto
    · intro hne
      simp [Bool.or_eq_true, decide_eq_true_eq]
      tauto

/-- C1 witness: on a state whose clock is unarmed, `update_transaction`
returns `None` and leaves the state untouched. -/
theorem C1_update_transaction_witness :
    c8_windows.update_transaction 7 (fun _ => true) (fun _ => true) = (none, c8_windows) :=
  (C1_update_transaction c8_windows 7 (fun _ => true) (fun _ => true) (by decide)).1 rfl

/-! ### Claim C6: overview drag classification -/

/-- `Overview::layout_position` reads only the `x_offset` field of the
overview, so it is unchanged by updates to the other fields. -/
theorem Overview.layout_position_only_x (ov : Overview) (ht : Option Unit)
    (cw : Option WindowId) (ldp : QPoint) (las : Option Nat) (da : DragAction)
    (output : Output) (layouts : Layouts) (point : QPoint) :
    Overview.layout_position (Overview.mk ht cw ldp las da ov.x_offset ov.y_offset)
        output layouts point
      = ov.layout_position output layouts point := rfl

/-- The C6 scenario: an overview over no layouts with an undetermined drag
action, last touch point at (50, 50). -/
def c6_overview : Overview :=
  { hold_timer := none, closing_window := none, last_drag_point := ⟨50, 50⟩,
    last_animation_step := some 3, drag_action := .None, x_offset := 0, y_offset := 0 }

/-- The C6 scenario's window manager: overview view, no layouts. -/
def c6_windows : Windows :=
  { dirty := false, layouts := Layouts.default, layers := Layers.default,
    view := .Overview c6_overview, transaction := none, canvas := 0, output := sample_output,
    unlocked_orientation := .Portrait, orientation_locked := false, transaction_start := 0 }

/-- C6 counterexample: a first drag motion from (50, 50) to (50, 60) is more
vertical than horizontal but lands over no window; the claim says the drag
then becomes a Cycle drag, yet the code leaves `drag_action` undetermined
(`None`) — `unwrap_or_default` after the failed window lookup yields
`DragAction::None`, not `Cycle`. -/
theorem C6_counterexample :
    |((⟨50, 60⟩ : QPoint).sub c6_overview.last_drag_point).x|
        < |((⟨50, 60⟩ : QPoint).sub c6_overview.last_drag_point).y|
    ∧ (c6_overview.layout_position c6_windows.output c6_windows.layouts ⟨50, 60⟩).bind
        (fun position => c6_windows.layouts.window_at position) = none
    ∧ (c6_windows.on_drag ⟨false⟩ ⟨50, 60⟩).1.view = View.Overview
        { c6_overview with
          last_drag_point := ⟨50, 60⟩
          last_animation_step := none
          hold_timer := none }
    ∧ ({ c6_overview with
          last_drag_point := (⟨50, 60⟩ : QPoint)
          last_animation_step := (none : Option Nat)
          hold_timer := (none : Option Unit) } : Overview).drag_action = DragAction.None
    ∧ DragAction.None ≠ DragAction.Cycle := by
  refine ⟨by norm_num [QPoint.sub, c6_overview], ?_, ?_, rfl, by decide⟩
  · norm_num [c6_windows, c6_overview, sample_output, Overview.layout_position,
      Overview.layout_position_go, OverviewPosition.new, OverviewPosition.secondary_bounds,
      IRect.containsQ, ISize.scaleV, ISize.subV, IPoint.addSize, rustRound, rustTrunc,
      Layouts.get, Layouts.default, Layouts.window_at, FG_OVERVIEW_PERCENTAGE,
      BG_OVERVIEW_PERCENTAGE, OVERVIEW_SPACING_PERCENTAGE, DEFAULT_LAYOUT]
  · norm_num [c6_windows, c6_overview, sample_output, Windows.on_drag, QPoint.sub,
      Overview.layout_position, Overview.layout_position_go, OverviewPosition.new,
      OverviewPosition.secondary_bounds, IRect.containsQ, ISize.scaleV, ISize.subV,
      IPoint.addSize, rustRound, rustTrunc, rustClamp, Layouts.get, Layouts.default,
      Layouts.window_at, Overview.overdrag_limited, Layouts.len, OVERDRAG_LIMIT,
      FG_OVERVIEW_PERCENTAGE, BG_OVERVIEW_PERCENTAGE, OVERVIEW_SPACING_PERCENTAGE,
      OVERVIEW_HORIZONTAL_SENSITIVITY, DEFAULT_LAYOUT, TouchState.cancel_velocity]

/-- C6 amended: during an Overview drag whose action is still undetermined,
the first motion classifies the drag — Close (holding the window's weak
handle) when the motion is more vertical than horizontal and a window lies
under the touch point, Cycle when the horizontal delta is at least the
vertical one, and it stays undetermined (retried on the next motion) when a
vertical motion lands over no window; once the action is Cycle, every motion
(including the classifying one) adds the horizontal delta divided by
`OVERVIEW_HORIZONTAL_SENSITIVITY` (250) to `x_offset`, and once it is Close
every motion adds the vertical delta to `y_offset`. -/
theorem C6_drag_classification (w : Windows) (ov : Overview) (touch : TouchState)
    (point : QPoint) (hview : w.view = View.Overview ov) :
    (∀ win, ov.drag_action = .None →
      |(point.sub ov.last_drag_point).x| < |(point.sub ov.last_drag_point).y| →
      (ov.layout_position w.output w.layouts point).bind
          (fun position => w.layouts.window_at position) = some win →
      (w.on_drag touch point).1.view = View.Overview
        { ov with
          last_drag_point := point
          drag_action := .Close win
          y_offset := ov.y_offset + (point.sub ov.last_drag_point).y
          last_animation_step := none
          hold_timer := none })
    ∧ (ov.drag_action = .None →
      ¬(|(point.sub ov.last_drag_point).x| < |(point.sub ov.last_drag_point).y|) →
      (w.on_drag touch point).1.view = View.Overview
        { ov with
          last_drag_point := point
          drag_action := .Cycle
          x_offset := ov.x_offset
            + (point.sub ov.last_drag_point).x / OVERVIEW_HORIZONTAL_SENSITIVITY
          last_animation_step := none
          hold_timer := none })
    ∧ (ov.drag_action = .None →
      |(point.sub ov.last_drag_point).x| < |(point.sub ov.last_drag_point).y| →
      (ov.layout_position w.output w.layouts point).bind
          (fun position => w.layouts.window_at position) = none →
      (w.on_drag touch point).1.view = View.Overview
        { ov with
          last_drag_point := point
          last_animation_step := none
          hold_timer := none })
    ∧ (ov.drag_action = .Cycle →
      (w.on_drag touch point).1.view = View.Overview
        { ov with
          last_drag_point := point
          x_offset := ov.x_offset
            + (point.sub ov.last_drag_point).x / OVERVIEW_HORIZONTAL_SENSITIVITY
          last_animation_step := none
          hold_timer := none })
    ∧ (∀ win, ov.drag_action = .Close win →
      (w.on_drag touch point).1.view = View.Overview
        { ov with
          last_drag_point := point
          y_offset := ov.y_offset + (point.sub ov.last_drag_point).y
          last_animation_step := none
          hold_timer := none }) := by
  refine ⟨?_, ?_, ?_, ?_, ?_⟩
  · intro win h0 habs hunder
    unfold Windows.on_drag
    rw [hview]
    dsimp only
    rw [if_pos h0, if_pos habs, Overview.layout_position_only_x, hunder]
  · intro h0 habs
    unfold Windows.on_drag
    rw [hview]
    dsimp only
    rw [if_pos h0, if_neg habs]
  · intro h0 habs hunder
    unfold Windows.on_drag
    rw [hview]
    dsimp only
    rw [if_pos h0, if_pos habs, Overview.layout_position_only_x, hunder]
    dsimp only
    rw [h0]
  · intro h0
    unfold Windows.on_drag
    rw [hview]
    dsimp only
    rw [if_neg (by rw [h0]; exact fun hc => DragAction.noConfusion hc), h0]
  · intro win h0
    unfold Windows.on_drag
    rw [hview]
    dsimp only
    rw [if_neg (by rw [h0]; exact fun hc => DragAction.noConfusion hc), h0]

/-- C6 amended witness: a horizontal first motion on the C6 scenario turns
the drag into a Cycle drag and moves `x_offset` by the horizontal delta over
the sensitivity constant. -/
theorem C6_drag_classification_witness :
    (c6_windows.on_drag ⟨false⟩ ⟨60, 55⟩).1.view = View.Overview
      { c6_overview with
        last_drag_point := ⟨60, 55⟩
        drag_action := .Cycle
        x_offset := c6_overview.x_offset
          + ((⟨60, 55⟩ : QPoint).sub c6_overview.last_drag_point).x
            / OVERVIEW_HORIZONTAL_SENSITIVITY
        last_animation_step := none
        hold_timer := none } :=
  (C6_drag_classification c6_windows c6_overview ⟨false⟩ ⟨60, 55⟩ rfl).2.1 rfl
    (by norm_num [QPoint.sub, c6_overview])

end Catacomb
